import Mathlib

/-!
Verification development for getMMlyrics.py, a Musixmatch lyrics client.

The development shallowly embeds the program's pure core:
* the JSON data model (`JVal`) and Python-style dictionary/indexing
  semantics, including the exceptions the interpreter raises
  (`Failure`);
* the credential extraction routine `get_mm_credentials`
  (byte-pattern scan over cache files, URL query parsing, newest-first
  selection);
* the query construction of `get_mm_lyrics` (ordered parameters,
  percent-encoding with the `signature` value inserted verbatim);
* the response interpretation of `get_mm_lyrics` (envelope status and
  captcha handling, no-results detection, projection into the `short`
  record with its try/except defaulting);
* the richsync transformation of `get_mm_richsync` (second JSON decode
  of `richsync_body`, offset-keyed line mappings).

Network transport and console printing are outside the embedding: the
functions below take the parsed HTTP response body as input.  JSON
numbers are modelled as exact rationals; the claims proved here never
depend on binary floating-point rounding, only on equality of parsed
literals.
-/

/-- A JSON value, as produced by Python's `json.loads`: `null`, booleans,
numbers, strings, arrays and objects.  Objects keep their key/value pairs
in insertion order, as Python dictionaries do. -/
inductive JVal where
  | null : JVal
  | bool (b : Bool) : JVal
  | num (q : Rat) : JVal
  | str (s : String) : JVal
  | arr (l : List JVal) : JVal
  | obj (l : List (String × JVal)) : JVal

mutual

/-- Decidable equality on JSON values (written by hand: the automatic
derivation does not handle the list nesting). -/
def JVal.decEq : (a b : JVal) → Decidable (a = b)
  | .null, .null => .isTrue rfl
  | .null, .bool _ => .isFalse (fun h => JVal.noConfusion h)
  | .null, .num _ => .isFalse (fun h => JVal.noConfusion h)
  | .null, .str _ => .isFalse (fun h => JVal.noConfusion h)
  | .null, .arr _ => .isFalse (fun h => JVal.noConfusion h)
  | .null, .obj _ => .isFalse (fun h => JVal.noConfusion h)
  | .bool _, .null => .isFalse (fun h => JVal.noConfusion h)
  | .bool a, .bool b =>
      match Bool.decEq a b with
      | .isTrue h => .isTrue (h ▸ rfl)
      | .isFalse h => .isFalse (fun hh => h (JVal.bool.inj hh))
  | .bool _, .num _ => .isFalse (fun h => JVal.noConfusion h)
  | .bool _, .str _ => .isFalse (fun h => JVal.noConfusion h)
  | .bool _, .arr _ => .isFalse (fun h => JVal.noConfusion h)
  | .bool _, .obj _ => .isFalse (fun h => JVal.noConfusion h)
  | .num _, .null => .isFalse (fun h => JVal.noConfusion h)
  | .num _, .bool _ => .isFalse (fun h => JVal.noConfusion h)
  | .num a, .num b =>
      match inferInstanceAs (Decidable (a = b)) with
      | .isTrue h => .isTrue (h ▸ rfl)
      | .isFalse h => .isFalse (fun hh => h (JVal.num.inj hh))
  | .num _, .str _ => .isFalse (fun h => JVal.noConfusion h)
  | .num _, .arr _ => .isFalse (fun h => JVal.noConfusion h)
  | .num _, .obj _ => .isFalse (fun h => JVal.noConfusion h)
  | .str _, .null => .isFalse (fun h => JVal.noConfusion h)
  | .str _, .bool _ => .isFalse (fun h => JVal.noConfusion h)
  | .str _, .num _ => .isFalse (fun h => JVal.noConfusion h)
  | .str a, .str b =>
      match String.decEq a b with
      | .isTrue h => .isTrue (h ▸ rfl)
      | .isFalse h => .isFalse (fun hh => h (JVal.str.inj hh))
  | .str _, .arr _ => .isFalse (fun h => JVal.noConfusion h)
  | .str _, .obj _ => .isFalse (fun h => JVal.noConfusion h)
  | .arr _, .null => .isFalse (fun h => JVal.noConfusion h)
  | .arr _, .bool _ => .isFalse (fun h => JVal.noConfusion h)
  | .arr _, .num _ => .isFalse (fun h => JVal.noConfusion h)
  | .arr _, .str _ => .isFalse (fun h => JVal.noConfusion h)
  | .arr a, .arr b =>
      match JVal.decEqList a b with
      | .isTrue h => .isTrue (h ▸ rfl)
      | .isFalse h => .isFalse (fun hh => h (JVal.arr.inj hh))
  | .arr _, .obj _ => .isFalse (fun h => JVal.noConfusion h)
  | .obj _, .null => .isFalse (fun h => JVal.noConfusion h)
  | .obj _, .bool _ => .isFalse (fun h => JVal.noConfusion h)
  | .obj _, .num _ => .isFalse (fun h => JVal.noConfusion h)
  | .obj _, .str _ => .isFalse (fun h => JVal.noConfusion h)
  | .obj _, .arr _ => .isFalse (fun h => JVal.noConfusion h)
  | .obj a, .obj b =>
      match JVal.decEqObj a b with
      | .isTrue h => .isTrue (h ▸ rfl)
      | .isFalse h => .isFalse (fun hh => h (JVal.obj.inj hh))

/-- Decidable equality on lists of JSON values. -/
def JVal.decEqList : (a b : List JVal) → Decidable (a = b)
  | [], [] => .isTrue rfl
  | [], _ :: _ => .isFalse (fun h => List.noConfusion h)
  | _ :: _, [] => .isFalse (fun h => List.noConfusion h)
  | x :: xs, y :: ys =>
      match JVal.decEq x y, JVal.decEqList xs ys with
      | .isTrue h1, .isTrue h2 => .isTrue (by rw [h1, h2])
      | .isFalse h1, _ => .isFalse (fun h => h1 (List.head_eq_of_cons_eq h))
      | _, .isFalse h2 => .isFalse (fun h => h2 (List.tail_eq_of_cons_eq h))

/-- Decidable equality on lists of key/value pairs. -/
def JVal.decEqObj : (a b : List (String × JVal)) → Decidable (a = b)
  | [], [] => .isTrue rfl
  | [], _ :: _ => .isFalse (fun h => List.noConfusion h)
  | _ :: _, [] => .isFalse (fun h => List.noConfusion h)
  | (k1, v1) :: xs, (k2, v2) :: ys =>
      match String.decEq k1 k2, JVal.decEq v1 v2, JVal.decEqObj xs ys with
      | .isTrue h1, .isTrue h2, .isTrue h3 => .isTrue (by rw [h1, h2, h3])
      | .isFalse h1, _, _ =>
          .isFalse (fun h => h1 (congrArg Prod.fst (List.head_eq_of_cons_eq h)))
      | _, .isFalse h2, _ =>
          .isFalse (fun h => h2 (congrArg Prod.snd (List.head_eq_of_cons_eq h)))
      | _, _, .isFalse h3 => .isFalse (fun h => h3 (List.tail_eq_of_cons_eq h))

end

instance : DecidableEq JVal := JVal.decEq

/-- The failure outcomes of the response-interpretation code.  The first
four are ordinary Python exceptions escaping untouched; the last three
are the errors the program raises deliberately (two `RuntimeError`s and
the `ValueError("No results")`). -/
inductive Failure where
  | keyError (k : String) : Failure
  | typeError : Failure
  | indexError : Failure
  | attributeError : Failure
  | jsonError : Failure
  | captchaRequired : Failure
  | apiError (code : JVal) (url : String) : Failure
  | noResults : Failure
deriving DecidableEq

/-- Decidable equality for `Except` results, so that concrete runs of the
embedded functions can be checked by evaluation. -/
def Except.decEq {ε α : Type} [DecidableEq ε] [DecidableEq α] :
    (a b : Except ε α) → Decidable (a = b)
  | .ok a, .ok b =>
      match inferInstanceAs (Decidable (a = b)) with
      | .isTrue h => .isTrue (h ▸ rfl)
      | .isFalse h => .isFalse (fun hh => h (Except.ok.inj hh))
  | .ok _, .error _ => .isFalse (fun h => Except.noConfusion h)
  | .error _, .ok _ => .isFalse (fun h => Except.noConfusion h)
  | .error a, .error b =>
      match inferInstanceAs (Decidable (a = b)) with
      | .isTrue h => .isTrue (h ▸ rfl)
      | .isFalse h => .isFalse (fun hh => h (Except.error.inj hh))

instance {ε α : Type} [DecidableEq ε] [DecidableEq α] : DecidableEq (Except ε α) :=
  Except.decEq

/-- Python subscription `d[k]` with a string key: succeeds only on a
dictionary that holds the key (first binding wins; parsed JSON objects
have unique keys), raises `KeyError` when the key is missing and
`TypeError` when the value is not a dictionary. -/
def JVal.idx : JVal → String → Except Failure JVal
  | .obj kvs, k =>
      match kvs.find? (fun kv => kv.1 = k) with
      | some kv => .ok kv.2
      | none => .error (.keyError k)
  | _, _ => .error .typeError

/-- Chained subscription `d[k1][k2]...`. -/
def jpath (v : JVal) : List String → Except Failure JVal
  | [] => .ok v
  | k :: ks =>
      match v.idx k with
      | .ok w => jpath w ks
      | .error e => .error e

/-- Python truthiness of a JSON value: `None`, `False`, zero, and empty
strings/lists/dicts are falsy. -/
def JVal.truthy : JVal → Bool
  | .null => false
  | .bool b => b
  | .num q => q != 0
  | .str s => s != ""
  | .arr l => !l.isEmpty
  | .obj l => !l.isEmpty

/-- Python iteration over a JSON value: a list yields its elements, a
string yields its characters as one-character strings, a dictionary
yields its keys; numbers, booleans and `None` are not iterable. -/
def pyIter : JVal → Except Failure (List JVal)
  | .arr l => .ok l
  | .str s => .ok (s.data.map (fun c => .str (String.singleton c)))
  | .obj kvs => .ok (kvs.map (fun kv => .str kv.1))
  | _ => .error .typeError

/-! ## Percent-encoding (`urllib.parse.quote` with its default `safe` set) -/

/-- UTF-8 encoding of one character, as a list of byte values. -/
def utf8Bytes (c : Char) : List Nat :=
  let n := c.toNat
  if n < 0x80 then [n]
  else if n < 0x800 then [0xC0 + n / 0x40, 0x80 + n % 0x40]
  else if n < 0x10000 then
    [0xE0 + n / 0x1000, 0x80 + n / 0x40 % 0x40, 0x80 + n % 0x40]
  else
    [0xF0 + n / 0x40000, 0x80 + n / 0x1000 % 0x40, 0x80 + n / 0x40 % 0x40,
     0x80 + n % 0x40]

/-- Upper-case hexadecimal digit. -/
def hexDigitUpper (n : Nat) : Char :=
  if n < 10 then Char.ofNat (48 + n) else Char.ofNat (55 + n)

/-- A `%XX` escape for one byte, upper-case hex as `quote` produces. -/
def pctByte (b : Nat) : String :=
  String.mk ['%', hexDigitUpper (b / 16), hexDigitUpper (b % 16)]

/-- The characters `urllib.parse.quote` leaves unescaped with its default
`safe` argument: ASCII letters, digits, `_.-~`, and `/`. -/
def quoteSafe (c : Char) : Bool :=
  (c ≥ 'A' && c ≤ 'Z') || (c ≥ 'a' && c ≤ 'z') || (c ≥ '0' && c ≤ '9') ||
  c = '_' || c = '.' || c = '-' || c = '~' || c = '/'

/-- `urllib.parse.quote`: keep safe characters, escape every other
character as the `%XX` escapes of its UTF-8 bytes. -/
def quote (s : String) : String :=
  s.data.foldl
    (fun acc c =>
      if quoteSafe c then acc ++ String.singleton c
      else acc ++ String.join ((utf8Bytes c).map pctByte)) ""

example : quote "Pink Floyd" = "Pink%20Floyd" := by decide
example : quote "lyrics_crowd,user,lyrics_verified_by"
    = "lyrics_crowd%2Cuser%2Clyrics_verified_by" := by decide

/-! ## Query construction of `get_mm_lyrics` (source lines 102-148) -/

/-- The credential 6-tuple.  The source passes it as a list; field `i` of
this record is `creds[i]` in source order: `userblob_id, user_language,
app_id, usertoken, guid, signature`. -/
structure Creds where
  userblob_id : String
  user_language : String
  app_id : String
  usertoken : String
  guid : String
  signature : String
deriving DecidableEq

/-- `str(float)` for the rationals arising in this development: the
shortest finite decimal expansion (Python's `repr` of a float is its
shortest round-tripping decimal, which for the short decimal literals
this program handles is the literal itself).  Integral values render
with a trailing `.0` exactly as Python's `str(float)` does. -/
def findScaleAux (n d k : Nat) : Nat → Option Nat
  | 0 => none
  | fuel + 1 =>
      if n * 10 ^ k % d = 0 then some k else findScaleAux n d (k + 1) fuel

/-- Decimal rendering of a rational, Python `str(float)` style. -/
def pyFloatStr (q : Rat) : String :=
  let sign := if q.num < 0 then "-" else ""
  let n := q.num.natAbs
  let d := q.den
  match findScaleAux n d 0 64 with
  | some 0 => sign ++ toString (n / d) ++ ".0"
  | some k =>
      let digits := toString (n * 10 ^ k / d)
      let padded := String.mk (List.replicate (k + 1 - digits.length) '0') ++ digits
      sign ++ padded.take (padded.length - k) ++ "." ++
        padded.drop (padded.length - k)
  | none => sign ++ toString n ++ "/" ++ toString d

example : pyFloatStr (mkRat 16988 100) = "169.88" := by decide
example : pyFloatStr (mkRat 201 1) = "201.0" := by decide

/-- The query dictionary of `get_mm_lyrics` (source lines 102-141), as the
ordered key/value sequence the Python dict holds.  `title`, `artist`,
`album` and `spotify_id` are `False` (here `none`) or a string; a supplied
empty string is falsy in Python and behaves like an absent value, which
the truthiness guards below reproduce.  `length` is `False` or the pair
(song length in seconds, search margin in seconds).  Numeric values are
rendered here with the `str()` conversion the URL construction applies. -/
def get_mm_lyrics_query (creds : Creds)
    (title artist album spotify_id : Option String)
    (length : Option (Rat × Int)) : List (String × String) :=
  (match length with
   | some ln => [("f_subtitle_length", toString (⌊ln.1⌋ : Int))]
   | none => []) ++
  [("namespace", "lyrics_synched"),
   ("part", "lyrics_crowd,user,lyrics_verified_by")] ++
  (match album with
   | some al => if al = "" then [] else [("q_album", al)]
   | none => []) ++
  (match artist with
   | some ar => if ar = "" then [] else [("q_artist", ar), ("q_artists", ar)]
   | none => []) ++
  (match length with
   | some ln => [("q_duration", pyFloatStr ln.1)]
   | none => []) ++
  (match title with
   | some t => if t = "" then [] else [("q_track", t)]
   | none => []) ++
  [("tags", "nowplaying"),
   ("userblob_id", creds.userblob_id),
   ("user_language", creds.user_language)] ++
  (match spotify_id with
   | some sp => if sp = "" then [] else [("track_spotify_id", sp)]
   | none => []) ++
  (match length with
   | some ln => [("f_subtitle_length_max_deviation", toString ln.2)]
   | none => []) ++
  [("subtitle_format", "lrc"),
   ("app_id", creds.app_id),
   ("usertoken", creds.usertoken),
   ("guid", creds.guid),
   ("signature", creds.signature),
   ("signature_protocol", "sha1")]

/-- URL construction of `get_mm_lyrics` (source lines 144-148): every
value is percent-encoded on insertion except the one under the
`signature` key, which is appended verbatim. -/
def get_mm_lyrics_url (q : List (String × String)) : String :=
  q.foldl
    (fun url kv =>
      url ++ "&" ++ kv.1 ++ "=" ++
        (if kv.1 = "signature" then kv.2 else quote kv.2))
    "https://apic-desktop.musixmatch.com/ws/1.1/macro.subtitles.get?format=json"

example : JVal.idx (.obj [("a", .num 1)]) "a" = .ok (.num 1) := by decide
example : JVal.idx (.obj [("a", .num 1)]) "b" = .error (.keyError "b") := by decide
example : JVal.idx (.str "x") "b" = .error .typeError := by decide
example : jpath (.obj [("m", .obj [("h", .num 200)])]) ["m", "h"] = .ok (.num 200) := by decide

/-! ## Claim C1 -/

/-- **C1.** With exactly `title` and `artist` supplied (album, spotify id
and length absent), the query of `get_mm_lyrics` holds exactly the
parameters `namespace, part, q_artist, q_artists, q_track, tags,
userblob_id, user_language, subtitle_format, app_id, usertoken, guid,
signature, signature_protocol`, in that order, with the documented fixed
constants; and the constructed URL percent-encodes every value except
`signature`, which is inserted verbatim. -/
theorem get_mm_lyrics_query_title_artist (creds : Creds) (t a : String)
    (ht : t ≠ "") (ha : a ≠ "") :
    get_mm_lyrics_query creds (some t) (some a) none none none =
      [("namespace", "lyrics_synched"),
       ("part", "lyrics_crowd,user,lyrics_verified_by"),
       ("q_artist", a), ("q_artists", a), ("q_track", t),
       ("tags", "nowplaying"),
       ("userblob_id", creds.userblob_id),
       ("user_language", creds.user_language),
       ("subtitle_format", "lrc"),
       ("app_id", creds.app_id), ("usertoken", creds.usertoken),
       ("guid", creds.guid), ("signature", creds.signature),
       ("signature_protocol", "sha1")] ∧
    get_mm_lyrics_url (get_mm_lyrics_query creds (some t) (some a) none none none) =
      "https://apic-desktop.musixmatch.com/ws/1.1/macro.subtitles.get?format=json&namespace=" ++
      quote "lyrics_synched" ++ "&part=" ++
      quote "lyrics_crowd,user,lyrics_verified_by" ++ "&q_artist=" ++
      quote a ++ "&q_artists=" ++ quote a ++ "&q_track=" ++ quote t ++
      "&tags=" ++ quote "nowplaying" ++ "&userblob_id=" ++
      quote creds.userblob_id ++ "&user_language=" ++
      quote creds.user_language ++ "&subtitle_format=" ++ quote "lrc" ++
      "&app_id=" ++ quote creds.app_id ++ "&usertoken=" ++
      quote creds.usertoken ++ "&guid=" ++ quote creds.guid ++
      "&signature=" ++ creds.signature ++ "&signature_protocol=" ++
      quote "sha1" := by
  set_option maxRecDepth 4000 in
  constructor
  · simp [get_mm_lyrics_query, ht, ha]
  · apply String.ext
    simp [get_mm_lyrics_query, get_mm_lyrics_url, ht, ha]

/-! ## Credential extraction (`get_mm_credentials`, source lines 30-76) -/

/-- Printable ASCII: byte values from space (32) to tilde (126).  The
credential pattern's terminator class `[^ -~]` matches exactly the bytes
outside this range. -/
def printableByte (b : Nat) : Bool := 32 ≤ b && b ≤ 126

/-- The literal URL marker of the credential pattern (source line 50),
as a list of byte values. -/
def endpointMark : List Nat :=
  ("https://apic-desktop.musixmatch.com/ws/1.1/macro.subtitles.get").data.map
    Char.toNat

/-- One attempt of the credential pattern
`(https://...macro\.subtitles\.get.*?)[^ -~]` at the head of `c`: the
literal marker, then a lazy `.*?` run, then one required byte outside
printable ASCII.  The attempt succeeds iff the marker is present and
some later byte lies outside 32..126; the captured group is the marker
plus the printable bytes before the first such terminator.  (`.` does
not match the newline byte 10, but 10 is itself outside 32..126 and so
always terminates the lazy run first.) -/
def regexAttempt (mark c : List Nat) : Option (List Nat) :=
  if c.take mark.length = mark then
    let rest := c.drop mark.length
    let run := rest.takeWhile printableByte
    if run.length < rest.length then some (mark ++ run) else none
  else none

/-- `re.search`: the attempt at the leftmost position that succeeds. -/
def regexSearch (mark : List Nat) : List Nat → Option (List Nat)
  | [] => regexAttempt mark []
  | b :: rest =>
      match regexAttempt mark (b :: rest) with
      | some m => some m
      | none => regexSearch mark rest

/-- `bytes.decode(errors='ignore')` for the byte runs this program
decodes: every matched byte is printable ASCII (the marker and the lazy
run both are), so decoding maps each ASCII byte to its character;
non-ASCII bytes, which cannot occur in a match, are dropped as the
`ignore` error handler would eventually drop undecodable input. -/
def bytesDecode (l : List Nat) : String :=
  String.mk ((l.filter (fun b => b < 128)).map Char.ofNat)

/-- Splitting a character list on every occurrence of a separator, as
Python `str.split` does for a one-character separator. -/
def splitOnChar (sep : Char) : List Char → List (List Char)
  | [] => [[]]
  | c :: rest =>
      let r := splitOnChar sep rest
      if c = sep then [] :: r
      else
        match r with
        | [] => [[c]]
        | g :: gs => (c :: g) :: gs

/-- Everything after the first occurrence of a separator, if any. -/
def dropThroughChar (sep : Char) : List Char → Option (List Char)
  | [] => none
  | c :: rest => if c = sep then some rest else dropThroughChar sep rest

/-- `urlparse(url).query`: the fragment (everything after the first `#`)
is split off first, then the query is everything after the first `?`. -/
def urlQuery (url : String) : String :=
  let noFrag := url.data.takeWhile (fun c => c ≠ '#')
  match dropThroughChar '?' noFrag with
  | some q => String.mk q
  | none => ""

/-- Value of a hexadecimal digit character, if it is one. -/
def hexVal (c : Char) : Option Nat :=
  if '0' ≤ c && c ≤ '9' then some (c.toNat - 48)
  else if 'A' ≤ c && c ≤ 'F' then some (c.toNat - 55)
  else if 'a' ≤ c && c ≤ 'f' then some (c.toNat - 87)
  else none

/-- UTF-8 decoding with the `replace` error handler, for the byte groups
`unquote` produces.  The inputs this program decodes are pure ASCII; the
multi-byte cases follow the standard UTF-8 layout and invalid bytes
become U+FFFD.  The fuel argument (at least the list length) only makes
the recursion structural. -/
def utf8DecodeFuel : Nat → List Nat → List Char
  | 0, _ => []
  | _, [] => []
  | fuel + 1, b :: rest =>
      if b < 0x80 then Char.ofNat b :: utf8DecodeFuel fuel rest
      else if 0xC2 ≤ b && b ≤ 0xDF then
        match rest with
        | c1 :: r2 =>
            if 0x80 ≤ c1 && c1 ≤ 0xBF then
              Char.ofNat ((b - 0xC0) * 0x40 + (c1 - 0x80)) :: utf8DecodeFuel fuel r2
            else Char.ofNat 0xFFFD :: utf8DecodeFuel fuel rest
        | [] => [Char.ofNat 0xFFFD]
      else if 0xE0 ≤ b && b ≤ 0xEF then
        match rest with
        | c1 :: c2 :: r3 =>
            if (0x80 ≤ c1 && c1 ≤ 0xBF) && (0x80 ≤ c2 && c2 ≤ 0xBF) then
              Char.ofNat
                  ((b - 0xE0) * 0x1000 + (c1 - 0x80) * 0x40 + (c2 - 0x80)) ::
                utf8DecodeFuel fuel r3
            else Char.ofNat 0xFFFD :: utf8DecodeFuel fuel rest
        | _ => [Char.ofNat 0xFFFD]
      else Char.ofNat 0xFFFD :: utf8DecodeFuel fuel rest

/-- UTF-8 decoding with replacement characters. -/
def utf8Decode (l : List Nat) : List Char := utf8DecodeFuel l.length l

/-- `urllib.parse.unquote`: consecutive `%XX` escapes are collected into
a byte group (held reversed in `pend`) and UTF-8 decoded together; other
characters pass through; a `%` not followed by two hex digits stays
literal.  Fuel again only drives the structural recursion. -/
def unquoteFuel : Nat → List Nat → List Char → List Char
  | _, pend, [] => utf8Decode pend.reverse
  | 0, pend, l => utf8Decode pend.reverse ++ l
  | fuel + 1, pend, c :: rest =>
      if c = '%' then
        match rest with
        | c1 :: c2 :: rest2 =>
            match hexVal c1, hexVal c2 with
            | some h1, some h2 => unquoteFuel fuel ((h1 * 16 + h2) :: pend) rest2
            | _, _ => utf8Decode pend.reverse ++ c :: unquoteFuel fuel [] rest
        | _ => utf8Decode pend.reverse ++ c :: unquoteFuel fuel [] rest
      else utf8Decode pend.reverse ++ c :: unquoteFuel fuel [] rest

/-- `urllib.parse.unquote`. -/
def unquote (s : String) : String :=
  String.mk (unquoteFuel s.data.length [] s.data)

/-- `urllib.parse.unquote_plus`: `+` becomes a space, then escapes are
decoded. -/
def unquote_plus (s : String) : String :=
  unquote (String.mk (s.data.map (fun c => if c = '+' then ' ' else c)))

/-- Split a name/value chunk at the first `=`, like `split('=', 1)`. -/
def splitFirstEq (acc : List Char) : List Char → Option (List Char × List Char)
  | [] => none
  | c :: rest =>
      if c = '=' then some (acc.reverse, rest) else splitFirstEq (c :: acc) rest

/-- `urllib.parse.parse_qsl` with default arguments: split the query on
`&`, drop empty chunks, chunks without `=`, and chunks whose value is
empty (`keep_blank_values` is off), and percent-decode names and values. -/
def parse_qsl (qs : String) : List (String × String) :=
  (splitOnChar '&' qs.data).filterMap (fun nv =>
    if nv.isEmpty then none
    else
      match splitFirstEq [] nv with
      | none => none
      | some (n, v) =>
          if v.isEmpty then none
          else some (unquote_plus (String.mk n), unquote_plus (String.mk v)))

/-- The six query fields read out of a matched URL, in source order
(line 61). -/
def credFields : List String :=
  ["userblob_id", "user_language", "app_id", "usertoken", "guid", "signature"]

/-- The extraction loop of source lines 60-62: append `query[p][0]` for
each field in order; a missing field raises `KeyError`, which the bare
`except` swallows, leaving the partially built list assigned.  Returns
the values collected so far and whether all six fields were found. -/
def credAttemptAux (qs : List (String × String)) :
    List String → List String → List String × Bool
  | [], acc => (acc.reverse, true)
  | p :: ps, acc =>
      match (qs.filter (fun kv => kv.1 = p)).head? with
      | some kv => credAttemptAux qs ps (kv.2 :: acc)
      | none => (acc.reverse, false)

/-- The whole per-file attempt of source lines 55-64: decode the matched
bytes, parse the URL's query string, read the six fields. -/
def credAttempt (m : List Nat) : List String × Bool :=
  credAttemptAux (parse_qsl (urlQuery (bytesDecode m))) credFields []

/-- A cache file as the scan sees it: its path, last-modification time,
whether opening it succeeds (a `PermissionError` is caught and the file
skipped), and its raw bytes. -/
structure CacheFile where
  path : String
  mtime : Int
  readable : Bool
  content : List Nat
deriving DecidableEq

/-- The module-level cache folder constant (source lines 14-17). -/
def CACHEFOLDERS : List String :=
  ["~/Library/Application Support/Musixmatch/Cache/",
   "~/.config/Musixmatch/Cache/",
   "~/snap/musixmatch/current/.config/Musixmatch/Cache/",
   "~\\AppData\\Roaming\\Musixmatch\\Cache\\"]

/-- Python `repr` of a string, for the strings occurring here: single
quotes, backslashes doubled. -/
def pyStrRepr (s : String) : String :=
  "'" ++
    String.mk (s.data.foldr
      (fun c acc => if c = '\\' then '\\' :: '\\' :: acc else c :: acc) []) ++
  "'"

/-- Python `str` of a list of strings, as an f-string interpolates it. -/
def pyListRepr (l : List String) : String :=
  "[" ++ String.intercalate ", " (l.map pyStrRepr) ++ "]"

/-- The message of the `AttributeError` raised at source line 70.  It
interpolates the module constant `CACHEFOLDERS`, not the function's
`cachefolders` argument. -/
def credErrMsg : String :=
  "\nUnable to load credentials from \"" ++ pyListRepr CACHEFOLDERS ++ "\"\n"

/-- Python `sorted(files, key=getmtime, reverse=True)`: a stable sort,
newest first.  Insertion sort with the newer-or-equal relation is stable
(an earlier file precedes a later file of equal mtime), matching
Python's sort on every input. -/
def sortFiles (files : List CacheFile) : List CacheFile :=
  List.insertionSort (fun f g => g.mtime ≤ f.mtime) files

/-- The file loop of source lines 38-70.  The option `st` models which
list the `credentials` local variable currently holds: `none` before any
pattern match, `some l` after an attempt assigned it (possibly a partial
list whose field extraction hit the swallowed `KeyError`).  When the
loop ends, the function raises only if `credentials` was never assigned;
a leftover partial list is returned as if it were a result. -/
def credLoop : List CacheFile → Option (List String) → Except String (List String)
  | [], none => .error credErrMsg
  | [], some c => .ok c
  | f :: rest, st =>
      if f.readable then
        match regexSearch endpointMark f.content with
        | some m =>
            let attempt := credAttempt m
            if attempt.2 then .ok attempt.1 else credLoop rest (some attempt.1)
        | none => credLoop rest st
      else credLoop rest st

/-- `get_mm_credentials` (source lines 30-76).  The filesystem is outside
the embedding: `files` are the regular files found in the caller's
`cachefolders`, which the function receives but - notably - does not use
for its failure message. -/
def get_mm_credentials (cachefolders : List String) (files : List CacheFile) :
    Except String (List String) :=
  credLoop (sortFiles files) none

/-- The first file of a list that is readable and yields a complete
six-field credential set, together with those fields. -/
def firstYieldCreds : List CacheFile → Option (List String)
  | [] => none
  | f :: rest =>
      if f.readable then
        match regexSearch endpointMark f.content with
        | some m =>
            let attempt := credAttempt m
            if attempt.2 then some attempt.1 else firstYieldCreds rest
        | none => firstYieldCreds rest
      else firstYieldCreds rest

/-- `sub` occurs as a contiguous segment of the list. -/
def hasSegment [DecidableEq α] (p : List α) : List α → Bool
  | [] => p.isEmpty
  | a :: rest => decide ((a :: rest).take p.length = p) || hasSegment p rest

/-- Modelled from the spec: the character class the specification ascribes
to the URL tail - letters, digits and the punctuation `/#?_=&%.-~` - used
below to compare the specified extraction against the implemented one. -/
def specAllowedByte (b : Nat) : Bool :=
  (65 ≤ b && b ≤ 90) || (97 ≤ b && b ≤ 122) || (48 ≤ b && b ≤ 57) ||
  b = 47 || b = 35 || b = 63 || b = 95 || b = 61 || b = 38 || b = 37 ||
  b = 46 || b = 45 || b = 126

example : unquote_plus "a%20b+c" = "a b c" := by decide
example : parse_qsl "a=1&b=&c&a=2" = [("a", "1"), ("a", "2")] := by decide
example : urlQuery "https://h/p?x=1&y=2#f" = "x=1&y=2" := by decide

/-- Concrete credentials for witness evaluations: the usertoken holds a
space and a plus sign (both percent-encoded by `quote`), the signature
holds characters that re-encoding would corrupt. -/
def credsEx : Creds where
  userblob_id := "blob123"
  user_language := "en"
  app_id := "web-desktop-app-v1.0"
  usertoken := "tok en+1"
  guid := "guid-1"
  signature := "Ab+/=Cd%3D"

/-- Witness for C1: a concrete call with only title and artist supplied
produces exactly the documented URL, signature verbatim. -/
theorem get_mm_lyrics_query_title_artist_witness :
    get_mm_lyrics_url
        (get_mm_lyrics_query credsEx (some "Nemo") (some "Pink Floyd")
          none none none) =
      "https://apic-desktop.musixmatch.com/ws/1.1/macro.subtitles.get?format=json&namespace=lyrics_synched&part=lyrics_crowd%2Cuser%2Clyrics_verified_by&q_artist=Pink%20Floyd&q_artists=Pink%20Floyd&q_track=Nemo&tags=nowplaying&userblob_id=blob123&user_language=en&subtitle_format=lrc&app_id=web-desktop-app-v1.0&usertoken=tok%20en%2B1&guid=guid-1&signature=Ab+/=Cd%3D&signature_protocol=sha1" := by
  set_option maxRecDepth 8000 in
  rw [(get_mm_lyrics_query_title_artist credsEx "Nemo" "Pink Floyd"
    (by decide) (by decide)).2]
  set_option maxRecDepth 8000 in
  decide

/-! ## Claim C3: the byte scan -/

/-- Every byte of the URL marker is printable ASCII. -/
theorem endpointMark_printable : ∀ b ∈ endpointMark, printableByte b = true := by
  decide

/-- One unfolding step of `regexSearch`. -/
theorem regexSearch_step (mark c : List Nat) :
    regexSearch mark c =
      match regexAttempt mark c with
      | some m => some m
      | none =>
          match c with
          | [] => none
          | _ :: t => regexSearch mark t := by
  cases c with
  | nil => cases h : regexAttempt mark [] <;> simp [regexSearch, h]
  | cons b t => simp [regexSearch]

/-- The attempt right at the marker: it succeeds exactly when a
terminator byte outside printable ASCII follows, capturing the marker
plus the printable run before it. -/
theorem regexAttempt_append (mark rest : List Nat) :
    regexAttempt mark (mark ++ rest) =
      if (rest.takeWhile printableByte).length < rest.length
      then some (mark ++ rest.takeWhile printableByte)
      else none := by
  simp [regexAttempt, List.take_left, List.drop_left]

/-- On a buffer of printable bytes only, the pattern never matches: its
mandatory terminator byte is missing. -/
theorem regexSearch_none_of_printable (mark c : List Nat)
    (hc : ∀ b ∈ c, printableByte b = true) : regexSearch mark c = none := by
  induction c with
  | nil => cases mark <;> simp [regexSearch, regexAttempt]
  | cons b t ih =>
      have ht : ∀ x ∈ t, printableByte x = true :=
        fun x hx => hc x (List.mem_cons_of_mem _ hx)
      have hatt : regexAttempt mark (b :: t) = none := by
        unfold regexAttempt
        split
        case isTrue hmk =>
          have hrest : ∀ x ∈ (b :: t).drop mark.length, printableByte x = true :=
            fun x hx => hc x (List.mem_of_mem_drop hx)
          simp [List.takeWhile_eq_self_iff.mpr hrest]
        case isFalse hmk => rfl
      rw [regexSearch_step, hatt]
      exact ih ht

/-- **C3 (amended).** For a buffer made of leading bytes in which the URL
marker does not start, then the marker, then a tail: the scan matches the
marker followed by the run of printable ASCII bytes (32..126; a space or
any other printable byte continues the run), and only if a terminator
byte outside that range follows the run - a URL running to the end of
the buffer unterminated yields no match. -/
theorem regexSearch_printable_run (noise rest : List Nat)
    (hnoise : ∀ i < noise.length,
      ((noise ++ (endpointMark ++ rest)).drop i).take endpointMark.length ≠
        endpointMark) :
    regexSearch endpointMark (noise ++ (endpointMark ++ rest)) =
      if (rest.takeWhile printableByte).length < rest.length
      then some (endpointMark ++ rest.takeWhile printableByte)
      else none := by
  induction noise with
  | nil =>
      simp only [List.nil_append]
      split
      case isTrue hterm =>
        rw [regexSearch_step, regexAttempt_append]
        simp [hterm]
      case isFalse hterm =>
        apply regexSearch_none_of_printable
        intro b hb
        rcases List.mem_append.mp hb with hm | hr
        · exact endpointMark_printable b hm
        · have hlen : (rest.takeWhile printableByte).length = rest.length := by
            have := (List.takeWhile_prefix (l := rest) printableByte).length_le
            omega
          have hself : rest.takeWhile printableByte = rest :=
            (List.takeWhile_prefix printableByte).eq_of_length hlen
          exact List.mem_takeWhile_imp (hself ▸ hr)
  | cons n ns ih =>
      have hatt :
          regexAttempt endpointMark ((n :: ns) ++ (endpointMark ++ rest)) = none := by
        unfold regexAttempt
        split
        case isTrue hmk => exact absurd hmk (by simpa using hnoise 0 (by simp))
        case isFalse hmk => rfl
      rw [List.cons_append, regexSearch_step]
      simp only [← List.cons_append, hatt]
      exact ih (fun i hi => by
        have h2 := hnoise (i + 1) (by simpa using Nat.succ_lt_succ hi)
        simpa using h2)

/-- Witness for the amended C3: noise, marker, a printable byte, then a
NUL terminator - the match is the marker plus the one printable byte. -/
theorem regexSearch_printable_run_witness :
    regexSearch endpointMark ([0, 65] ++ (endpointMark ++ [97, 0, 98])) =
      some (endpointMark ++ [97]) := by
  rw [regexSearch_printable_run [0, 65] [97, 0, 98] (by decide)]
  decide

/-- **C3 (counterexample).** The spec's restricted character class is not
what the code implements: after the marker, `a b` followed by a NUL is
captured in full (the space, outside the spec's class, does not end the
match), and a marker running to the end of the buffer with no terminator
byte is not matched at all (the spec says it is). -/
theorem regexSearch_specclass_counterexample :
    regexSearch endpointMark (endpointMark ++ [97, 32, 98, 0]) =
      some (endpointMark ++ [97, 32, 98]) ∧
    endpointMark ++ List.takeWhile specAllowedByte [97, 32, 98, 0] =
      endpointMark ++ [97] ∧
    (endpointMark ++ [97, 32, 98] : List Nat) ≠ endpointMark ++ [97] ∧
    regexSearch endpointMark endpointMark = none := by
  refine ⟨?_, by decide, by decide, by decide⟩
  decide

/-! ## Claims C4 and C6: file selection and the failure path -/

/-- If some file in the (already sorted) list yields a complete credential
set, the loop returns the first such yield - whatever partial list the
`credentials` variable may hold from an earlier file. -/
theorem credLoop_of_firstYield (c : List String) :
    ∀ (l : List CacheFile) (st : Option (List String)),
      firstYieldCreds l = some c → credLoop l st = .ok c := by
  intro l
  induction l with
  | nil => intro st h; simp [firstYieldCreds] at h
  | cons f rest ih =>
      intro st h
      by_cases hr : f.readable
      · cases hm : regexSearch endpointMark f.content with
        | none =>
            rw [firstYieldCreds, if_pos hr, hm] at h
            rw [credLoop, if_pos hr, hm]
            exact ih _ h
        | some m =>
            by_cases ha : (credAttempt m).2
            · rw [firstYieldCreds, if_pos hr, hm] at h
              simp only [ha, if_true] at h
              rw [credLoop, if_pos hr, hm]
              simp only [ha, if_true]
              exact congrArg Except.ok (Option.some.inj h)
            · rw [firstYieldCreds, if_pos hr, hm] at h
              simp only [ha, if_false] at h
              rw [credLoop, if_pos hr, hm]
              simp only [ha, if_false]
              exact ih _ h
      · rw [firstYieldCreds, if_neg hr] at h
        rw [credLoop, if_neg hr]
        exact ih _ h

/-- **C4.** `get_mm_credentials` examines the files in stable descending
last-modified order; files that are unreadable, hold no marker, or yield
an incomplete field set are skipped without aborting the search; the
result is the credential list - in the fixed order `userblob_id,
user_language, app_id, usertoken, guid, signature` built into
`credAttempt` - of the first file of the sorted sequence that yields all
six fields. -/
theorem get_mm_credentials_newest_complete (folders : List String)
    (files : List CacheFile) (c : List String)
    (h : firstYieldCreds (sortFiles files) = some c) :
    get_mm_credentials folders files = .ok c ∧
    (sortFiles files).Pairwise (fun f g => g.mtime ≤ f.mtime) := by
  constructor
  · exact credLoop_of_firstYield c _ none h
  · haveI : IsTotal CacheFile (fun f g => g.mtime ≤ f.mtime) :=
      ⟨fun a b => le_total b.mtime a.mtime⟩
    haveI : IsTrans CacheFile (fun f g => g.mtime ≤ f.mtime) :=
      ⟨fun a b cc h1 h2 => le_trans h2 h1⟩
    exact List.sorted_insertionSort _ files

/-- Content builder for concrete cache files: the URL marker followed by
a query-string tail, as stored inside a binary cache blob. -/
def mkCacheContent (tail : String) : List Nat :=
  endpointMark ++ tail.data.map Char.toNat

/-- An older cache file whose URL carries all six fields. -/
def fileOlderFull : CacheFile where
  path := "/custom/cache/a"
  mtime := 100
  readable := true
  content :=
    [7, 66] ++
    mkCacheContent
      "?userblob_id=u1&user_language=en&app_id=a1&usertoken=t1&guid=g1&signature=s1" ++
    [0, 50]

/-- A newer cache file whose URL stops after three fields. -/
def fileNewerIncomplete : CacheFile where
  path := "/custom/cache/b"
  mtime := 200
  readable := true
  content := mkCacheContent "?userblob_id=u9&user_language=de&app_id=a9" ++ [10]

/-- A still newer cache file that cannot be opened. -/
def fileUnreadable : CacheFile where
  path := "/custom/cache/c"
  mtime := 300
  readable := false
  content := mkCacheContent "?userblob_id=ux" ++ [0]

/-- Witness for C4: of three files the newest is unreadable, the next
newest matches but misses three fields, and the oldest yields the result. -/
theorem get_mm_credentials_newest_complete_witness :
    get_mm_credentials ["/custom/cache/"]
        [fileOlderFull, fileNewerIncomplete, fileUnreadable] =
      .ok ["u1", "en", "a1", "t1", "g1", "s1"] := by
  exact (get_mm_credentials_newest_complete ["/custom/cache/"]
    [fileOlderFull, fileNewerIncomplete, fileUnreadable]
    ["u1", "en", "a1", "t1", "g1", "s1"] (by decide)).1

/-- **C6.** When the scan exhausts the files without a complete credential
set, the error message interpolates the module constant `CACHEFOLDERS`,
not the `cachefolders` argument: searching a custom folder produces a
message that does not name it but does name the default folders.
Moreover, when some file yielded a partial field list, the function does
not fail at all: it returns the three-element partial list. -/
theorem get_mm_credentials_message_uses_constant :
    get_mm_credentials ["/custom/cache/"] [] = .error credErrMsg ∧
    hasSegment "/custom/cache/".data credErrMsg.data = false ∧
    hasSegment "~/.config/Musixmatch/Cache/".data credErrMsg.data = true ∧
    get_mm_credentials ["/custom/cache/"] [fileNewerIncomplete] =
      .ok ["u9", "de", "a9"] := by
  refine ⟨rfl, by decide, by decide, by decide⟩

/-! ## Response interpretation of `get_mm_lyrics` (source lines 169-254) -/

/-- `Except.ok` feeds the continuation. -/
@[simp] theorem exceptOk_bind {e a b : Type} (x : a) (f : a → Except e b) :
    (Except.ok x >>= f) = f x := rfl

/-- `Except.error` short-circuits the continuation. -/
@[simp] theorem exceptError_bind {e a b : Type} (x : e) (f : a → Except e b) :
    ((Except.error x : Except e a) >>= f) = Except.error x := rfl

/-- The five derived status booleans (source lines 202-206). -/
structure TrackStatus where
  lyrics : Bool
  crowd_lyrics : Bool
  richsync : Bool
  subtitles : Bool
  instrumental : Bool
deriving DecidableEq

/-- One richsync line after the in-place rewrite of source line 311:
`attrs` is the original line object, `l` is the offset-to-fragment
mapping that replaces the value stored under the key `"l"`. -/
structure RichLine where
  attrs : List (String × JVal)
  l : List (JVal × JVal)
deriving DecidableEq

/-- The `short` record packed at source lines 244-248: the `copyright`
field alone is a genuine string (it went through `.strip()`); the other
scalar fields hold the raw response values. -/
structure Short where
  track_id : JVal
  spotify_id : JVal
  name : JVal
  artist : JVal
  album : JVal
  length : JVal
  cover : JVal
  first_release : JVal
  language : JVal
  copyright : String
  lyrics : JVal
  crowd_lyrics : List JVal
  richsync : List RichLine
  subtitles : List JVal
  status : TrackStatus
deriving DecidableEq

/-- Python `str.strip()` over its ASCII whitespace characters. -/
def pyWhitespace (c : Char) : Bool :=
  c = ' ' || c = '\t' || c = '\n' || c = '\r' ||
  c = Char.ofNat 11 || c = Char.ofNat 12

/-- Python `str.strip()`. -/
def pyStrip (s : String) : String :=
  String.mk (((s.data.dropWhile pyWhitespace).reverse.dropWhile
    pyWhitespace).reverse)

/-- Left-to-right effectful map over a list, as a Python list
comprehension evaluates: the first failing element aborts. -/
def mapMExcept {α β : Type} (f : α → Except Failure β) :
    List α → Except Failure (List β)
  | [] => .ok []
  | a :: rest => do
      let b ← f a
      let bs ← mapMExcept f rest
      Except.ok (b :: bs)

/-- The plain-lyrics block of source lines 212-219: one `try` reads
`lyrics_body`, `lyrics_language` and stripped `lyrics_copyright`; a
`KeyError` anywhere in the block leaves all three empty.  A non-string
copyright would fail `.strip()` with an uncaught `AttributeError`. -/
def lyricsTriple (lyrics_data : JVal) : Except Failure (JVal × JVal × String) :=
  match (do
    let lyr ← lyrics_data.idx "lyrics"
    let body ← lyr.idx "lyrics_body"
    let lang ← lyr.idx "lyrics_language"
    let cr ← lyr.idx "lyrics_copyright"
    match cr with
    | .str s => Except.ok (body, lang, pyStrip s)
    | _ => Except.error Failure.attributeError :
      Except Failure (JVal × JVal × String)) with
  | .ok t => .ok t
  | .error (.keyError _) => .ok (.str "", .str "", "")
  | .error e => .error e

/-- The crowd-lyrics block of source lines 221-224: the comprehension
over `crowd_lyrics_list`, with `KeyError` (and only `KeyError`)
defaulting to the empty list. -/
def crowdLyrics (lyrics_data : JVal) : Except Failure (List JVal) :=
  match (do
    let cl ← lyrics_data.idx "crowd_lyrics_list"
    let items ← pyIter cl
    mapMExcept (fun cv => do
      let lyr ← cv.idx "lyrics"
      lyr.idx "lyrics_body") items : Except Failure (List JVal)) with
  | .ok l => .ok l
  | .error (.keyError _) => .ok []
  | .error e => .error e

/-- The subtitles block of source lines 230-233: like the crowd block,
but `TypeError` is caught as well, so a malformed `subtitle_list` also
defaults to the empty list. -/
def subtitlesList (subtitles_data : JVal) : Except Failure (List JVal) :=
  match (do
    let sl ← subtitles_data.idx "subtitle_list"
    let items ← pyIter sl
    mapMExcept (fun sv => do
      let sub ← sv.idx "subtitle"
      sub.idx "subtitle_body") items : Except Failure (List JVal)) with
  | .ok l => .ok l
  | .error (.keyError _) => .ok []
  | .error .typeError => .ok []
  | .error e => .error e

/-- The cover-art projection of source line 198: the last value among the
track entries whose key contains `album_coverart` and whose value is not
the empty string; subscribing `[-1]` into an empty list raises
`IndexError`.  (`track.items()` on a non-dictionary would raise before
this point is reached.) -/
def coverOf : JVal → Except Failure JVal
  | .obj kvs =>
      match (kvs.filter (fun kv =>
        hasSegment "album_coverart".data kv.1.data &&
          decide (kv.2 ≠ .str ""))).getLast? with
      | some kv => .ok kv.2
      | none => .error .indexError
  | _ => .error .attributeError

/-- The slice `[:10]` of source line 200 applied to a response value:
defined on strings (and lists, which Python also slices); anything else
is unsubscriptable. -/
def sliceFirstTen : JVal → Except Failure JVal
  | .str s => .ok (.str (String.mk (s.data.take 10)))
  | .arr l => .ok (.arr (l.take 10))
  | _ => .error .typeError

/-- The status dictionary of source lines 202-206: five required track
fields passed through `bool(...)`. -/
def statusOf (track : JVal) : Except Failure TrackStatus := do
  let hl ← track.idx "has_lyrics"
  let hc ← track.idx "has_lyrics_crowd"
  let hr ← track.idx "has_richsync"
  let hs ← track.idx "has_subtitles"
  let hi ← track.idx "instrumental"
  Except.ok ⟨hl.truthy, hc.truthy, hr.truthy, hs.truthy, hi.truthy⟩

/-- The response interpretation of `get_mm_lyrics` (source lines
169-254), from the parsed JSON body onward.  `richsyncResult` stands for
the outcome the nested `get_mm_richsync` call would produce; it is
consulted only when richsync was requested and the track has it. -/
def get_mm_lyrics_interpret (full : JVal) (url : String) (get_richsync : Bool)
    (richsyncResult : Except Failure (List RichLine)) : Except Failure Short := do
  let msg ← full.idx "message"
  let hdr ← msg.idx "header"
  let sc ← hdr.idx "status_code"
  if sc ≠ .num 200 then
    let hint ← hdr.idx "hint"
    if hint = .str "captcha" then Except.error .captchaRequired
    else Except.error (.apiError sc url)
  else do
    let body ← msg.idx "body"
    let mc ← body.idx "macro_calls"
    let mtg ← mc.idx "matcher.track.get"
    let mtgMsg ← mtg.idx "message"
    let mtgBody ← mtgMsg.idx "body"
    match mtgBody with
    | .str _ => Except.error .noResults
    | _ => do
      let track ← mtgBody.idx "track"
      let track_id ← track.idx "track_id"
      let spotify_id ← track.idx "track_spotify_id"
      let name ← track.idx "track_name"
      let length ← track.idx "track_length"
      let artist ← track.idx "artist_name"
      let album ← track.idx "album_name"
      let cover ← coverOf track
      let frd ← track.idx "first_release_date"
      let first_release ← sliceFirstTen frd
      let status ← statusOf track
      let lyrics_data ← jpath full
        ["message", "body", "macro_calls", "track.lyrics.get", "message", "body"]
      let triple ← lyricsTriple lyrics_data
      let crowd_lyrics ← crowdLyrics lyrics_data
      let subtitles_data ← jpath full
        ["message", "body", "macro_calls", "track.subtitles.get", "message", "body"]
      let subtitles ← subtitlesList subtitles_data
      let richsync ←
        if get_richsync && status.richsync then richsyncResult else Except.ok []
      Except.ok
        { track_id, spotify_id, name, artist, album, length, cover,
          first_release,
          language := triple.2.1, copyright := triple.2.2, lyrics := triple.1,
          crowd_lyrics, richsync, subtitles, status }

/-! ## Claim C2: envelope failures -/

/-- **C2 (amended).** On a non-200 envelope status: a `hint` equal to
`"captcha"` fails with `CaptchaRequired`; any other `hint` value fails
with `ApiError` carrying the status and the URL; but an *absent* `hint`
field propagates the `hint` lookup failure (Python's `KeyError`), not
`ApiError`. -/
theorem get_mm_lyrics_envelope_failure (full msg hdr sc : JVal) (url : String)
    (gr : Bool) (rr : Except Failure (List RichLine))
    (h1 : full.idx "message" = .ok msg)
    (h2 : msg.idx "header" = .ok hdr)
    (h3 : hdr.idx "status_code" = .ok sc)
    (hne : sc ≠ .num 200) :
    get_mm_lyrics_interpret full url gr rr =
      match hdr.idx "hint" with
      | .ok hint =>
          if hint = .str "captcha" then .error .captchaRequired
          else .error (.apiError sc url)
      | .error e => .error e := by
  cases hh : hdr.idx "hint" with
  | ok hint => simp [get_mm_lyrics_interpret, h1, h2, h3, hne, hh]
  | error e => simp [get_mm_lyrics_interpret, h1, h2, h3, hne, hh]

/-- An envelope with status 401 and no `hint` field. -/
def envNoHint : JVal :=
  .obj [("message", .obj [("header", .obj [("status_code", .num 401)])])]

/-- An envelope with status 401 and `hint = "captcha"`. -/
def envCaptcha : JVal :=
  .obj [("message", .obj
    [("header", .obj [("status_code", .num 401), ("hint", .str "captcha")])])]

/-- An envelope with status 401 and an unrelated hint. -/
def envOtherHint : JVal :=
  .obj [("message", .obj
    [("header", .obj [("status_code", .num 401), ("hint", .str "renew")])])]

/-- **C2 (counterexample).** With the `hint` field absent, the call does
not fail with `ApiError` as the claim states: the uncaught `KeyError`
for `hint` escapes instead. -/
theorem get_mm_lyrics_absent_hint_counterexample :
    get_mm_lyrics_interpret envNoHint "http://u" false (.ok []) =
      .error (.keyError "hint") ∧
    Failure.keyError "hint" ≠ Failure.apiError (.num 401) "http://u" := by
  exact ⟨rfl, by decide⟩

/-- Witness for the amended C2: status 401 with hint `"captcha"` yields
`CaptchaRequired`; status 401 with hint `"renew"` yields `ApiError`
with the status and URL. -/
theorem get_mm_lyrics_envelope_failure_witness :
    get_mm_lyrics_interpret envCaptcha "http://u" false (.ok []) =
      .error .captchaRequired ∧
    get_mm_lyrics_interpret envOtherHint "http://u" false (.ok []) =
      .error (.apiError (.num 401) "http://u") := by
  constructor
  · rw [get_mm_lyrics_envelope_failure envCaptcha
      (.obj [("header", .obj [("status_code", .num 401), ("hint", .str "captcha")])])
      (.obj [("status_code", .num 401), ("hint", .str "captcha")])
      (.num 401) "http://u" false (.ok []) rfl rfl rfl (by decide)]
    decide
  · rw [get_mm_lyrics_envelope_failure envOtherHint
      (.obj [("header", .obj [("status_code", .num 401), ("hint", .str "renew")])])
      (.obj [("status_code", .num 401), ("hint", .str "renew")])
      (.num 401) "http://u" false (.ok []) rfl rfl rfl (by decide)]
    decide

/-! ## Claim C5: string matcher body means no results -/

/-- **C5.** On an envelope-200 response whose `matcher.track.get` body is
a string - whatever string - the call fails with `NoResults`, a failure
distinct from `ApiError` by construction. -/
theorem get_mm_lyrics_string_body_noResults (full msg hdr body mc mtg mtgMsg : JVal)
    (s url : String) (gr : Bool) (rr : Except Failure (List RichLine))
    (h1 : full.idx "message" = .ok msg)
    (h2 : msg.idx "header" = .ok hdr)
    (h3 : hdr.idx "status_code" = .ok (.num 200))
    (h4 : msg.idx "body" = .ok body)
    (h5 : body.idx "macro_calls" = .ok mc)
    (h6 : mc.idx "matcher.track.get" = .ok mtg)
    (h7 : mtg.idx "message" = .ok mtgMsg)
    (h8 : mtgMsg.idx "body" = .ok (.str s)) :
    get_mm_lyrics_interpret full url gr rr = .error .noResults ∧
    (∀ (code : JVal) (u : String), Failure.noResults ≠ Failure.apiError code u) := by
  refine ⟨?_, fun code u h => Failure.noConfusion h⟩
  simp [get_mm_lyrics_interpret, h1, h2, h3, h4, h5, h6, h7, h8]

/-- A full response whose matcher body is the error string. -/
def respNoResults : JVal :=
  .obj [("message", .obj
    [("header", .obj [("status_code", .num 200)]),
     ("body", .obj [("macro_calls", .obj
       [("matcher.track.get", .obj
          [("message", .obj [("body", .str "No results")])])])])])]

/-- Witness for C5 at the literal backend string `"No results"`. -/
theorem get_mm_lyrics_string_body_noResults_witness :
    get_mm_lyrics_interpret respNoResults "http://u" false (.ok []) =
      .error .noResults := by
  exact (get_mm_lyrics_string_body_noResults respNoResults
    (.obj [("header", .obj [("status_code", .num 200)]),
           ("body", .obj [("macro_calls", .obj
             [("matcher.track.get", .obj
                [("message", .obj [("body", .str "No results")])])])])])
    (.obj [("status_code", .num 200)])
    (.obj [("macro_calls", .obj
       [("matcher.track.get", .obj [("message", .obj [("body", .str "No results")])])])])
    (.obj [("matcher.track.get", .obj [("message", .obj [("body", .str "No results")])])])
    (.obj [("message", .obj [("body", .str "No results")])])
    (.obj [("body", .str "No results")])
    "No results" "http://u" false (.ok [])
    rfl rfl rfl rfl rfl rfl rfl rfl).1

/-! ## Claim C10: missing cover art -/

/-- **C10.** On a successful, non-NoResults response whose track object
carries no key containing `album_coverart` with a non-empty value, the
projection fails with an uncaught `IndexError` - a failure that is none
of the documented kinds. -/
theorem get_mm_lyrics_no_cover_indexError
    (full msg hdr body mc mtg mtgMsg : JVal) (bodyKvs track : List (String × JVal))
    (url : String) (gr : Bool) (rr : Except Failure (List RichLine))
    (h1 : full.idx "message" = .ok msg)
    (h2 : msg.idx "header" = .ok hdr)
    (h3 : hdr.idx "status_code" = .ok (.num 200))
    (h4 : msg.idx "body" = .ok body)
    (h5 : body.idx "macro_calls" = .ok mc)
    (h6 : mc.idx "matcher.track.get" = .ok mtg)
    (h7 : mtg.idx "message" = .ok mtgMsg)
    (h8 : mtgMsg.idx "body" = .ok (.obj bodyKvs))
    (h9 : (JVal.obj bodyKvs).idx "track" = .ok (.obj track))
    (e1 : ∃ v, (JVal.obj track).idx "track_id" = .ok v)
    (e2 : ∃ v, (JVal.obj track).idx "track_spotify_id" = .ok v)
    (e3 : ∃ v, (JVal.obj track).idx "track_name" = .ok v)
    (e4 : ∃ v, (JVal.obj track).idx "track_length" = .ok v)
    (e5 : ∃ v, (JVal.obj track).idx "artist_name" = .ok v)
    (e6 : ∃ v, (JVal.obj track).idx "album_name" = .ok v)
    (hcov : ∀ kv ∈ track,
      hasSegment "album_coverart".data kv.1.data = true → kv.2 = .str "") :
    get_mm_lyrics_interpret full url gr rr = .error .indexError ∧
    Failure.indexError ≠ .captchaRequired ∧
    Failure.indexError ≠ .noResults ∧
    (∀ (code : JVal) (u : String), Failure.indexError ≠ .apiError code u) := by
  obtain ⟨v1, hv1⟩ := e1
  obtain ⟨v2, hv2⟩ := e2
  obtain ⟨v3, hv3⟩ := e3
  obtain ⟨v4, hv4⟩ := e4
  obtain ⟨v5, hv5⟩ := e5
  obtain ⟨v6, hv6⟩ := e6
  have hfilter : track.filter (fun kv =>
      hasSegment "album_coverart".data kv.1.data &&
        decide (kv.2 ≠ .str "")) = [] := by
    apply List.filter_eq_nil_iff.mpr
    intro kv hkv
    by_cases hseg : hasSegment "album_coverart".data kv.1.data = true
    · simp [hseg, hcov kv hkv hseg]
    · simp [hseg]
  have hcover : coverOf (.obj track) = .error .indexError := by
    have hc2 : coverOf (.obj track) =
        (match (track.filter (fun kv =>
            hasSegment "album_coverart".data kv.1.data &&
              decide (kv.2 ≠ .str ""))).getLast? with
         | some kv => Except.ok kv.2
         | none => Except.error Failure.indexError) := rfl
    rw [hc2, hfilter]
    rfl
  refine ⟨?_, by decide, by decide, fun code u h => Failure.noConfusion h⟩
  simp [get_mm_lyrics_interpret, h1, h2, h3, h4, h5, h6, h7, h8, h9,
    hv1, hv2, hv3, hv4, hv5, hv6, hcover]

/-- A track object with the six metadata fields but only an empty cover
field. -/
def trackNoCover : List (String × JVal) :=
  [("track_id", .num 42), ("track_spotify_id", .str "sp"),
   ("track_name", .str "N"), ("track_length", .num 100),
   ("artist_name", .str "A"), ("album_name", .str "L"),
   ("album_coverart_100x100", .str "")]

/-- A full response holding `trackNoCover`. -/
def respNoCover : JVal :=
  .obj [("message", .obj
    [("header", .obj [("status_code", .num 200)]),
     ("body", .obj [("macro_calls", .obj
       [("matcher.track.get", .obj
          [("message", .obj [("body", .obj [("track", .obj trackNoCover)])])])])])])]

/-- Witness for C10: the concrete no-cover response hits `IndexError`. -/
theorem get_mm_lyrics_no_cover_indexError_witness :
    get_mm_lyrics_interpret respNoCover "http://u" false (.ok []) =
      .error .indexError := by
  exact (get_mm_lyrics_no_cover_indexError respNoCover
    (.obj [("header", .obj [("status_code", .num 200)]),
           ("body", .obj [("macro_calls", .obj
             [("matcher.track.get", .obj
                [("message", .obj [("body", .obj [("track", .obj trackNoCover)])])])])])])
    (.obj [("status_code", .num 200)])
    (.obj [("macro_calls", .obj
       [("matcher.track.get", .obj
          [("message", .obj [("body", .obj [("track", .obj trackNoCover)])])])])])
    (.obj [("matcher.track.get", .obj
       [("message", .obj [("body", .obj [("track", .obj trackNoCover)])])])])
    (.obj [("message", .obj [("body", .obj [("track", .obj trackNoCover)])])])
    (.obj [("body", .obj [("track", .obj trackNoCover)])])
    [("track", .obj trackNoCover)] trackNoCover
    "http://u" false (.ok [])
    rfl rfl rfl rfl rfl rfl rfl rfl rfl
    ⟨.num 42, rfl⟩ ⟨.str "sp", rfl⟩ ⟨.str "N", rfl⟩
    ⟨.num 100, rfl⟩ ⟨.str "A", rfl⟩ ⟨.str "L", rfl⟩
    (by decide)).1

/-! ## Claim C8: projection defaults -/

/-- **C8 (amended).** The copyright text is trimmed of surrounding
whitespace.  The three plain-lyrics fields are extracted in one
`try` block: when `lyrics_body`, `lyrics_language` and
`lyrics_copyright` are all present they are projected (copyright
stripped), but a missing field anywhere in the block - even just the
copyright - blanks *all three* to the empty string.  The crowd-lyrics
list defaults to empty when its source key is absent, and the subtitle
list defaults to empty when its source key is absent or its value is
malformed. -/
theorem lyrics_projection_defaults (ld sd : JVal) :
    (∀ lyr body lang s,
      ld.idx "lyrics" = .ok lyr →
      lyr.idx "lyrics_body" = .ok body →
      lyr.idx "lyrics_language" = .ok lang →
      lyr.idx "lyrics_copyright" = .ok (.str s) →
      lyricsTriple ld = .ok (body, lang, pyStrip s)) ∧
    (∀ k, ld.idx "lyrics" = .error (.keyError k) →
      lyricsTriple ld = .ok (.str "", .str "", "")) ∧
    (∀ lyr k, ld.idx "lyrics" = .ok lyr →
      lyr.idx "lyrics_body" = .error (.keyError k) →
      lyricsTriple ld = .ok (.str "", .str "", "")) ∧
    (∀ lyr body k, ld.idx "lyrics" = .ok lyr →
      lyr.idx "lyrics_body" = .ok body →
      lyr.idx "lyrics_language" = .error (.keyError k) →
      lyricsTriple ld = .ok (.str "", .str "", "")) ∧
    (∀ lyr body lang k, ld.idx "lyrics" = .ok lyr →
      lyr.idx "lyrics_body" = .ok body →
      lyr.idx "lyrics_language" = .ok lang →
      lyr.idx "lyrics_copyright" = .error (.keyError k) →
      lyricsTriple ld = .ok (.str "", .str "", "")) ∧
    (∀ k, ld.idx "crowd_lyrics_list" = .error (.keyError k) →
      crowdLyrics ld = .ok []) ∧
    (∀ k, sd.idx "subtitle_list" = .error (.keyError k) →
      subtitlesList sd = .ok []) ∧
    (∀ sl, sd.idx "subtitle_list" = .ok sl → pyIter sl = .error .typeError →
      subtitlesList sd = .ok []) := by
  refine ⟨?_, ?_, ?_, ?_, ?_, ?_, ?_, ?_⟩
  · intro lyr body lang str h1 h2 h3 h4
    simp [lyricsTriple, h1, h2, h3, h4]
  · intro k h1
    simp [lyricsTriple, h1]
  · intro lyr k h1 h2
    simp [lyricsTriple, h1, h2]
  · intro lyr body k h1 h2 h3
    simp [lyricsTriple, h1, h2, h3]
  · intro lyr body lang k h1 h2 h3 h4
    simp [lyricsTriple, h1, h2, h3, h4]
  · intro k h1
    simp [crowdLyrics, h1]
  · intro k h1
    simp [subtitlesList, h1]
  · intro sl h1 h2
    simp [subtitlesList, h1, h2]

/-- A lyrics block with body, language and copyright all present; the
copyright carries surrounding whitespace. -/
def lyricsDataEx : JVal :=
  .obj [("lyrics", .obj
    [("lyrics_body", .str "La la"), ("lyrics_language", .str "en"),
     ("lyrics_copyright", .str "  (c) X  ")])]

/-- Witness for the amended C8: full triple projected with trimmed
copyright; absent crowd list and malformed subtitle list default to
empty. -/
theorem lyrics_projection_defaults_witness :
    lyricsTriple lyricsDataEx = .ok (.str "La la", .str "en", "(c) X") ∧
    crowdLyrics (.obj []) = .ok [] ∧
    subtitlesList (.obj [("subtitle_list", .num 5)]) = .ok [] := by
  refine ⟨?_, ?_, ?_⟩
  · exact ((lyrics_projection_defaults lyricsDataEx (.obj [])).1
      (.obj [("lyrics_body", .str "La la"), ("lyrics_language", .str "en"),
             ("lyrics_copyright", .str "  (c) X  ")])
      (.str "La la") (.str "en") "  (c) X  " rfl rfl rfl rfl).trans (by decide)
  · exact (lyrics_projection_defaults (.obj []) (.obj [])).2.2.2.2.2.1
      "crowd_lyrics_list" rfl
  · exact (lyrics_projection_defaults (.obj [])
      (.obj [("subtitle_list", .num 5)])).2.2.2.2.2.2.2 (.num 5) rfl rfl

/-- Wraps a call result body the way the macro response nests it. -/
def mkCall (body : JVal) : JVal := .obj [("message", .obj [("body", body)])]

/-- A status-200 envelope around a `macro_calls` object. -/
def mkEnvelope (calls : List (String × JVal)) : JVal :=
  .obj [("message", .obj
    [("header", .obj [("status_code", .num 200)]),
     ("body", .obj [("macro_calls", .obj calls)])])]

/-- A track object with all projected fields present. -/
def trackFull : List (String × JVal) :=
  [("track_id", .num 42), ("track_spotify_id", .str "sp"),
   ("track_name", .str "N"), ("track_length", .num 100),
   ("artist_name", .str "A"), ("album_name", .str "L"),
   ("album_coverart_100x100", .str "http://cover"),
   ("first_release_date", .str "2004-05-01T00:00:00Z"),
   ("has_lyrics", .num 1), ("has_lyrics_crowd", .num 0),
   ("has_richsync", .num 0), ("has_subtitles", .num 1),
   ("instrumental", .num 0)]

/-- A full response whose lyrics block has body and language but no
copyright field. -/
def respMissingCopyright : JVal :=
  mkEnvelope
    [("matcher.track.get", mkCall (.obj [("track", .obj trackFull)])),
     ("track.lyrics.get", mkCall (.obj [("lyrics", .obj
        [("lyrics_body", .str "B"), ("lyrics_language", .str "en")])])),
     ("track.subtitles.get", mkCall (.obj [("subtitle_list", .arr [])]))]

/-- The `short` record the code produces for `respMissingCopyright`. -/
def shortMissingCopyright : Short where
  track_id := .num 42
  spotify_id := .str "sp"
  name := .str "N"
  artist := .str "A"
  album := .str "L"
  length := .num 100
  cover := .str "http://cover"
  first_release := .str "2004-05-01"
  language := .str ""
  copyright := ""
  lyrics := .str ""
  crowd_lyrics := []
  richsync := []
  subtitles := []
  status := ⟨true, false, false, true, false⟩

/-- **C8 (counterexample).** The response carries `lyrics_body = "B"` and
`lyrics_language = "en"`, but because `lyrics_copyright` is absent the
single `try` block blanks all three fields: the projected lyrics value
is the empty string, not the present response value `"B"`. -/
theorem lyrics_present_field_blanked_counterexample :
    jpath respMissingCopyright
      ["message", "body", "macro_calls", "track.lyrics.get", "message",
       "body", "lyrics", "lyrics_body"] = .ok (.str "B") ∧
    get_mm_lyrics_interpret respMissingCopyright "http://u" false (.ok []) =
      .ok shortMissingCopyright ∧
    shortMissingCopyright.lyrics = .str "" ∧
    shortMissingCopyright.language = .str "" ∧
    JVal.str "" ≠ .str "B" := by
  exact ⟨rfl, by decide, rfl, rfl, by decide⟩

/-! ## JSON parsing (`json.loads`) and the richsync transformation
(source lines 258-313) -/

/-- JSON insignificant whitespace. -/
def jsonWs (c : Char) : Bool := c = ' ' || c = '\t' || c = '\n' || c = '\r'

/-- Skip insignificant whitespace. -/
def skipWs (l : List Char) : List Char := l.dropWhile jsonWs

/-- Decimal digit test. -/
def isDigitChar (c : Char) : Bool := '0' ≤ c && c ≤ '9'

/-- Value of a run of decimal digits. -/
def digitsToNat (l : List Char) : Nat :=
  l.foldl (fun n c => n * 10 + (c.toNat - 48)) 0

/-- Exponent digits with their sign. -/
def parseExpDigits (sgn : Int) (t : List Char) : Option (Int × List Char) :=
  let d := t.takeWhile isDigitChar
  if d.isEmpty then none
  else some (sgn * digitsToNat d, t.dropWhile isDigitChar)

/-- A JSON number, returned as the exact rational its decimal text
denotes.  (`json.loads` returns an int or a binary float here; the
program only ever compares these values for equality, and the decimal
literals it handles are told apart equally well by their exact values.) -/
def parseNum (l : List Char) : Option (Rat × List Char) :=
  let sl : Int × List Char := match l with | '-' :: t => (-1, t) | _ => (1, l)
  let ip := sl.2.takeWhile isDigitChar
  let r1 := sl.2.dropWhile isDigitChar
  if ip.isEmpty then none
  else
    let fracPart : Option (List Char × List Char) :=
      match r1 with
      | '.' :: t =>
          let fd := t.takeWhile isDigitChar
          if fd.isEmpty then none else some (fd, t.dropWhile isDigitChar)
      | _ => some ([], r1)
    match fracPart with
    | none => none
    | some (fd, r2) =>
        let expPart : Option (Int × List Char) :=
          match r2 with
          | 'e' :: '+' :: t => parseExpDigits 1 t
          | 'e' :: '-' :: t => parseExpDigits (-1) t
          | 'e' :: t => parseExpDigits 1 t
          | 'E' :: '+' :: t => parseExpDigits 1 t
          | 'E' :: '-' :: t => parseExpDigits (-1) t
          | 'E' :: t => parseExpDigits 1 t
          | _ => some (0, r2)
        match expPart with
        | none => none
        | some (ex, r3) =>
            let mant : Int := sl.1 * (digitsToNat ip * 10 ^ fd.length + digitsToNat fd)
            let decExp : Int := ex - fd.length
            let q :=
              if 0 ≤ decExp then mkRat (mant * (10 : Int) ^ decExp.toNat) 1
              else mkRat mant (10 ^ (-decExp).toNat)
            some (q, r3)

/-- A JSON string body after the opening quote.  Escapes follow the JSON
grammar; a `\uXXXX` escape becomes the code point it names (the
surrogate-pair recombination of `json.loads` is not modelled - no input
this development evaluates contains surrogates). -/
def parseStringAux : Nat → List Char → List Char → Option (String × List Char)
  | 0, _, _ => none
  | _, _, [] => none
  | fuel + 1, acc, c :: rest =>
      if c = '"' then some (String.mk acc.reverse, rest)
      else if c = '\\' then
        match rest with
        | e :: r2 =>
            if e = '"' then parseStringAux fuel ('"' :: acc) r2
            else if e = '\\' then parseStringAux fuel ('\\' :: acc) r2
            else if e = '/' then parseStringAux fuel ('/' :: acc) r2
            else if e = 'b' then parseStringAux fuel (Char.ofNat 8 :: acc) r2
            else if e = 'f' then parseStringAux fuel (Char.ofNat 12 :: acc) r2
            else if e = 'n' then parseStringAux fuel ('\n' :: acc) r2
            else if e = 'r' then parseStringAux fuel ('\r' :: acc) r2
            else if e = 't' then parseStringAux fuel ('\t' :: acc) r2
            else if e = 'u' then
              match r2 with
              | h1 :: h2 :: h3 :: h4 :: r3 =>
                  match hexVal h1, hexVal h2, hexVal h3, hexVal h4 with
                  | some a, some b, some c2, some d =>
                      parseStringAux fuel
                        (Char.ofNat (((a * 16 + b) * 16 + c2) * 16 + d) :: acc) r3
                  | _, _, _, _ => none
              | _ => none
            else none
        | [] => none
      else parseStringAux fuel (c :: acc) rest

/-- The element loop of a JSON array, parameterised by the value parser
for the elements (which closes over its own fuel). -/
def parseArrItemsF (pv : List Char → Option (JVal × List Char)) :
    Nat → List Char → List JVal → Option (JVal × List Char)
  | 0, _, _ => none
  | fuel + 1, l, acc =>
      match pv l with
      | none => none
      | some (v, r) =>
          match skipWs r with
          | ',' :: r2 => parseArrItemsF pv fuel r2 (v :: acc)
          | ']' :: r2 => some (.arr (v :: acc).reverse, r2)
          | _ => none

/-- The member loop of a JSON object. -/
def parseObjItemsF (pv : List Char → Option (JVal × List Char)) :
    Nat → List Char → List (String × JVal) → Option (JVal × List Char)
  | 0, _, _ => none
  | fuel + 1, l, acc =>
      match skipWs l with
      | '"' :: r =>
          match parseStringAux r.length [] r with
          | none => none
          | some (k, r2) =>
              match skipWs r2 with
              | ':' :: r3 =>
                  match pv r3 with
                  | none => none
                  | some (v, r4) =>
                      match skipWs r4 with
                      | ',' :: r5 => parseObjItemsF pv fuel r5 ((k, v) :: acc)
                      | '}' :: r5 => some (.obj ((k, v) :: acc).reverse, r5)
                      | _ => none
              | _ => none
      | _ => none

/-- A JSON value. -/
def parseVal : Nat → List Char → Option (JVal × List Char)
  | 0, _ => none
  | fuel + 1, l =>
      match skipWs l with
      | [] => none
      | c :: rest =>
          if c = 'n' then
            match rest with
            | 'u' :: 'l' :: 'l' :: r => some (.null, r)
            | _ => none
          else if c = 't' then
            match rest with
            | 'r' :: 'u' :: 'e' :: r => some (.bool true, r)
            | _ => none
          else if c = 'f' then
            match rest with
            | 'a' :: 'l' :: 's' :: 'e' :: r => some (.bool false, r)
            | _ => none
          else if c = '"' then
            match parseStringAux rest.length [] rest with
            | some (s, r) => some (.str s, r)
            | none => none
          else if c = '[' then
            match skipWs rest with
            | ']' :: r => some (.arr [], r)
            | r2 => parseArrItemsF (parseVal fuel) fuel r2 []
          else if c = '{' then
            match skipWs rest with
            | '}' :: r => some (.obj [], r)
            | r2 => parseObjItemsF (parseVal fuel) fuel r2 []
          else if c = '-' || isDigitChar c then
            match parseNum (c :: rest) with
            | some (q, r) => some (.num q, r)
            | none => none
          else none

/-- `json.loads`: parse one value, allow trailing whitespace only;
anything else raises `json.JSONDecodeError`. -/
def jsonParse (s : String) : Except Failure JVal :=
  match parseVal (2 * s.data.length + 2) s.data with
  | some (v, r) => if (skipWs r).isEmpty then .ok v else .error .jsonError
  | none => .error .jsonError

example : jsonParse "\x7b\"o\": 0.05, \"c\": \"He\"\x7d" =
    .ok (.obj [("o", .num (mkRat 5 100)), ("c", .str "He")]) := by decide
example : jsonParse "[1, -2.5e1, null, true]" =
    .ok (.arr [.num 1, .num (mkRat (-25) 1), .null, .bool true]) := by decide

/-- One assignment into a Python dictionary: an existing key keeps its
position and takes the new value, a new key is appended. -/
def pyDictInsert (d : List (JVal × JVal)) (k v : JVal) : List (JVal × JVal) :=
  if d.any (fun p => p.1 = k) then
    d.map (fun p => if p.1 = k then (p.1, v) else p)
  else d ++ [(k, v)]

/-- The dict comprehension `{part['o']: part['c'] for part in ...}` over
pairs already extracted: left-to-right insertion, later values
overwriting earlier ones at the same key. -/
def pyDictComp (parts : List (JVal × JVal)) : List (JVal × JVal) :=
  parts.foldl (fun d p => pyDictInsert d p.1 p.2) []

/-- One loop iteration of source lines 310-311: read `value['l']`,
iterate over its parts reading `part['o']` and `part['c']`, and replace
the value under `"l"` by the offset-keyed mapping.  A non-dictionary
line cannot be subscripted with `'l'`. -/
def simplifyLine : JVal → Except Failure RichLine
  | .obj kvs => do
      let lv ← JVal.idx (.obj kvs) "l"
      let parts ← pyIter lv
      let pairs ← mapMExcept (fun part => do
        let o ← part.idx "o"
        let c ← part.idx "c"
        Except.ok (o, c)) parts
      Except.ok ⟨kvs, pyDictComp pairs⟩
  | _ => .error .typeError

/-- The whole rewrite loop of source lines 310-311.  A decoded
`richsync_body` that is not a list fails with `TypeError` (iteration or
the in-place item assignment breaks, depending on the value). -/
def richsyncSimplify : JVal → Except Failure (List RichLine)
  | .arr lines => mapMExcept simplifyLine lines
  | _ => .error .typeError

/-- The response interpretation of `get_mm_richsync` (source lines
292-313): envelope check (no captcha branch on this endpoint), then the
double decode - `richsync_body` is itself a JSON-encoded string parsed a
second time - then the per-line rewrite.  `json.loads` of a non-string
body raises `TypeError`. -/
def get_mm_richsync_interpret (full : JVal) (url : String) :
    Except Failure (List RichLine) := do
  let msg ← full.idx "message"
  let hdr ← msg.idx "header"
  let sc ← hdr.idx "status_code"
  if sc ≠ .num 200 then Except.error (.apiError sc url)
  else do
    let body ← msg.idx "body"
    let rs ← body.idx "richsync"
    let rb ← rs.idx "richsync_body"
    match rb with
    | .str s => do
        let parsed ← jsonParse s
        richsyncSimplify parsed
    | _ => Except.error .typeError

/-! ## Claim C7: the double decode and the offset-keyed projection -/

/-- **C7.** On an envelope-200 richsync response whose `richsync_body`
field is a string, `get_mm_richsync` parses that string a second time
and rewrites each decoded line into its offset-keyed mapping: the result
is exactly `richsyncSimplify` of the second parse. -/
theorem get_mm_richsync_double_decode (full msg hdr body rs j : JVal)
    (s url : String)
    (h1 : full.idx "message" = .ok msg)
    (h2 : msg.idx "header" = .ok hdr)
    (h3 : hdr.idx "status_code" = .ok (.num 200))
    (h4 : msg.idx "body" = .ok body)
    (h5 : body.idx "richsync" = .ok rs)
    (h6 : rs.idx "richsync_body" = .ok (.str s))
    (h7 : jsonParse s = .ok j) :
    get_mm_richsync_interpret full url = richsyncSimplify j := by
  simp [get_mm_richsync_interpret, h1, h2, h3, h4, h5, h6, h7]

/-- The spec's example `richsync_body` text (JSON-encoded): one line with
two offset/fragment pairs. -/
def richsyncBodyEx : String :=
  "[\x7b\"l\":[\x7b\"o\":0,\"c\":\"Hello\"\x7d,\x7b\"o\":0.05,\"c\":\" \"\x7d]\x7d]"

/-- A richsync response holding the spec's example body, double-encoded. -/
def respRichsync : JVal :=
  .obj [("message", .obj
    [("header", .obj [("status_code", .num 200)]),
     ("body", .obj [("richsync", .obj
       [("richsync_body",
         .str richsyncBodyEx)])])])]

/-- Witness for C7: the example input projects to one line whose mapping
sends 0 to `"Hello"` and 0.05 to `" "`. -/
theorem get_mm_richsync_double_decode_witness :
    get_mm_richsync_interpret respRichsync "http://u" =
      .ok [⟨[("l", .arr
              [.obj [("o", .num 0), ("c", .str "Hello")],
               .obj [("o", .num (mkRat 5 100)), ("c", .str " ")]])],
            [(.num 0, .str "Hello"), (.num (mkRat 5 100), .str " ")]⟩] := by
  rw [get_mm_richsync_double_decode respRichsync
    (.obj [("header", .obj [("status_code", .num 200)]),
           ("body", .obj [("richsync", .obj
             [("richsync_body",
               .str richsyncBodyEx)])])])
    (.obj [("status_code", .num 200)])
    (.obj [("richsync", .obj
       [("richsync_body",
         .str richsyncBodyEx)])])
    (.obj [("richsync_body",
       .str richsyncBodyEx)])
    (.arr [.obj [("l", .arr
       [.obj [("o", .num 0), ("c", .str "Hello")],
        .obj [("o", .num (mkRat 5 100)), ("c", .str " ")]])]])
    richsyncBodyEx "http://u"
    rfl rfl rfl rfl rfl rfl (by decide)]
  decide

/-! ## Claim C9: offset collisions collapse, later fragment wins -/

/-- Overwriting at key `x` when nothing in `d` has key `x` changes no
entry of the `x`-filter. -/
theorem map_overwrite_filter_nil (d : List (JVal × JVal)) (v x : JVal)
    (hd : d.filter (fun p => p.1 = x) = []) :
    (d.map (fun p => if p.1 = x then (p.1, v) else p)).filter
      (fun p => p.1 = x) = [] := by
  induction d with
  | nil => rfl
  | cons q rest ih =>
      have hq : ¬(q.1 = x) := by
        intro hq
        rw [List.filter_cons_of_pos (by simpa using hq)] at hd
        exact List.noConfusion hd
      have hrest : rest.filter (fun p => p.1 = x) = [] := by
        rwa [List.filter_cons_of_neg (by simpa using hq)] at hd
      simp [hq, ih hrest]

/-- Overwriting at a key other than `x` leaves the `x`-filter unchanged. -/
theorem map_overwrite_filter_ne (d : List (JVal × JVal)) (k v x : JVal)
    (hkx : k ≠ x) :
    (d.map (fun p => if p.1 = k then (p.1, v) else p)).filter
      (fun p => p.1 = x) = d.filter (fun p => p.1 = x) := by
  induction d with
  | nil => rfl
  | cons q rest ih =>
      rw [List.map_cons]
      by_cases hq : q.1 = k
      · have hqx : ¬(q.1 = x) := by rw [hq]; exact hkx
        rw [if_pos hq]
        rw [List.filter_cons_of_neg (by simpa using hqx),
          List.filter_cons_of_neg (by simpa using hqx)]
        exact ih
      · rw [if_neg hq]
        by_cases hqx : q.1 = x
        · rw [List.filter_cons_of_pos (by simpa using hqx),
            List.filter_cons_of_pos (by simpa using hqx), ih]
        · rw [List.filter_cons_of_neg (by simpa using hqx),
            List.filter_cons_of_neg (by simpa using hqx)]
          exact ih

/-- Overwriting at key `x` with at most one `x`-keyed entry present:
afterwards the `x`-filter is exactly the new binding. -/
theorem map_overwrite_filter_one (d : List (JVal × JVal)) (v x : JVal)
    (hlen : (d.filter (fun p => p.1 = x)).length ≤ 1)
    (hany : d.any (fun p => p.1 = x) = true) :
    (d.map (fun p => if p.1 = x then (p.1, v) else p)).filter
      (fun p => p.1 = x) = [(x, v)] := by
  induction d with
  | nil => simp at hany
  | cons q rest ih =>
      rw [List.map_cons]
      by_cases hq : q.1 = x
      · have hrest : rest.filter (fun p => p.1 = x) = [] := by
          rw [List.filter_cons_of_pos (by simpa using hq),
            List.length_cons] at hlen
          have h0 : (rest.filter (fun p => p.1 = x)).length = 0 := by omega
          exact List.length_eq_zero.mp h0
        have hmap := map_overwrite_filter_nil rest v x hrest
        rw [if_pos hq]
        rw [List.filter_cons_of_pos (by simpa using hq), hmap]
        rw [show ((q.1, v) : JVal × JVal) = (x, v) from by rw [hq]]
      · have hany2 : rest.any (fun p => p.1 = x) = true := by
          rcases List.any_eq_true.mp hany with ⟨p, hp, hpx⟩
          rcases List.mem_cons.mp hp with hh | hh
          · exact absurd (by simpa [hh] using hpx) hq
          · exact List.any_eq_true.mpr ⟨p, hh, hpx⟩
        have hlen2 : (rest.filter (fun p => p.1 = x)).length ≤ 1 := by
          rwa [List.filter_cons_of_neg (by simpa using hq)] at hlen
        rw [if_neg hq]
        rw [List.filter_cons_of_neg (by simpa using hq)]
        exact ih hlen2 hany2

/-- Inserting at key `x` (at most one `x`-keyed entry present): the
`x`-filter becomes exactly the new binding, whether the key existed
(overwrite in place) or not (append). -/
theorem pyDictInsert_filter_hit (d : List (JVal × JVal)) (v x : JVal)
    (hlen : (d.filter (fun p => p.1 = x)).length ≤ 1) :
    (pyDictInsert d x v).filter (fun p => p.1 = x) = [(x, v)] := by
  unfold pyDictInsert
  by_cases hany : d.any (fun p => p.1 = x) = true
  · rw [if_pos hany]
    exact map_overwrite_filter_one d v x hlen hany
  · rw [if_neg hany]
    have hnil : d.filter (fun p => p.1 = x) = [] :=
      List.filter_eq_nil_iff.mpr (fun p hp hpx => by
        exact hany (List.any_eq_true.mpr ⟨p, hp, by simpa using hpx⟩))
    rw [List.filter_append, hnil]
    simp

/-- Inserting at a key other than `x` leaves the `x`-filter unchanged. -/
theorem pyDictInsert_filter_miss (d : List (JVal × JVal)) (k v x : JVal)
    (hkx : k ≠ x) :
    (pyDictInsert d k v).filter (fun p => p.1 = x) =
      d.filter (fun p => p.1 = x) := by
  unfold pyDictInsert
  by_cases hany : d.any (fun p => p.1 = k) = true
  · rw [if_pos hany]
    exact map_overwrite_filter_ne d k v x hkx
  · rw [if_neg hany]
    rw [List.filter_append]
    simp [hkx]

/-- The key fact about the dict comprehension: filtering the built
mapping at any key leaves exactly the binding of the *last* pair with
that key (or, with no such pair, whatever the accumulator held). -/
theorem pyDictComp_foldl_filter (x : JVal) (parts : List (JVal × JVal)) :
    ∀ (d : List (JVal × JVal)),
      (d.filter (fun p => p.1 = x)).length ≤ 1 →
      ((parts.foldl (fun dd p => pyDictInsert dd p.1 p.2) d).filter
        (fun p => p.1 = x)) =
        (match (parts.filter (fun p => p.1 = x)).getLast? with
         | some p => [(x, p.2)]
         | none => d.filter (fun p => p.1 = x)) := by
  induction parts with
  | nil => intro d hd; simp
  | cons p rest ih =>
      intro d hd
      by_cases hp : p.1 = x
      · have hd' : ((pyDictInsert d p.1 p.2).filter (fun q => q.1 = x)) =
            [(x, p.2)] := by
          rw [hp]
          exact pyDictInsert_filter_hit d p.2 x hd
        rw [List.foldl_cons, ih (pyDictInsert d p.1 p.2) (by rw [hd']; simp)]
        rw [List.filter_cons_of_pos (by simpa using hp)]
        cases hrf : rest.filter (fun q => q.1 = x) with
        | nil => simp [hrf, hd']
        | cons a t =>
            rw [List.getLast?_cons_cons,
              List.getLast?_eq_getLast (a :: t) (by simp)]
      · have hd' : ((pyDictInsert d p.1 p.2).filter (fun q => q.1 = x)) =
            d.filter (fun q => q.1 = x) :=
          pyDictInsert_filter_miss d p.1 p.2 x hp
        rw [List.foldl_cons, ih (pyDictInsert d p.1 p.2) (by rw [hd']; exact hd)]
        rw [List.filter_cons_of_neg (by simpa using hp), hd']

/-- A `{o, c}` part object for an offset/fragment pair. -/
def mkPart (p : JVal × JVal) : JVal := .obj [("o", p.1), ("c", p.2)]

/-- Extracting `part['o']` and `part['c']` from built parts recovers the
pairs. -/
theorem mkPart_extract_mapM (parts : List (JVal × JVal)) :
    mapMExcept (fun part => do
      let o ← part.idx "o"
      let c ← part.idx "c"
      Except.ok (o, c)) (parts.map mkPart) = Except.ok parts := by
  induction parts with
  | nil => rfl
  | cons p rest ih =>
      rw [List.map_cons]
      rw [show mapMExcept (fun part => do
          let o ← part.idx "o"
          let c ← part.idx "c"
          Except.ok (o, c)) (mkPart p :: rest.map mkPart) =
        (mapMExcept (fun part => do
          let o ← part.idx "o"
          let c ← part.idx "c"
          Except.ok (o, c)) (rest.map mkPart) >>= fun bs =>
            Except.ok ((p.1, p.2) :: bs)) from rfl]
      rw [ih]
      rfl

/-- A line whose `l` member lists the given parts simplifies to the dict
comprehension of its offset/fragment pairs. -/
theorem simplifyLine_parts (parts : List (JVal × JVal)) :
    simplifyLine (.obj [("l", .arr (parts.map mkPart))]) =
      .ok ⟨[("l", .arr (parts.map mkPart))], pyDictComp parts⟩ := by
  rw [show simplifyLine (.obj [("l", .arr (parts.map mkPart))]) =
      (mapMExcept (fun part => do
        let o ← part.idx "o"
        let c ← part.idx "c"
        Except.ok (o, c)) (parts.map mkPart) >>= fun pairs =>
          Except.ok ⟨[("l", .arr (parts.map mkPart))], pyDictComp pairs⟩)
    from rfl]
  rw [mkPart_extract_mapM]
  rfl

/-- **C9.** In a richsync line whose parts contain two (or more) pairs
with one offset, the offset-keyed mapping holds exactly one entry at
that offset, and its fragment is the fragment of the pair occurring
last in the original sequence. -/
theorem richsync_duplicate_offsets_collapse (parts : List (JVal × JVal))
    (x : JVal) (h : 2 ≤ (parts.filter (fun p => p.1 = x)).length) :
    ∃ w,
      simplifyLine (.obj [("l", .arr (parts.map mkPart))]) =
        .ok ⟨[("l", .arr (parts.map mkPart))], pyDictComp parts⟩ ∧
      (pyDictComp parts).filter (fun p => p.1 = x) = [(x, w)] ∧
      (parts.filter (fun p => p.1 = x)).getLast? = some (x, w) := by
  have hcomp := pyDictComp_foldl_filter x parts [] (by simp)
  cases hgl : (parts.filter (fun p => p.1 = x)).getLast? with
  | none =>
      exfalso
      cases hfl : parts.filter (fun p => p.1 = x) with
      | nil => rw [hfl] at h; simp at h
      | cons a t => rw [hfl] at hgl; simp at hgl
  | some p =>
      refine ⟨p.2, simplifyLine_parts parts, ?_, ?_⟩
      · rw [pyDictComp, hcomp, hgl]
      · have hmem := List.mem_of_getLast?_eq_some hgl
        have hx : p.1 = x := by simpa using List.of_mem_filter hmem
        exact congrArg some (Prod.ext hx rfl)

/-- Witness for C9: offsets 0 and 0 with fragments `"A"` then `"B"`
collapse to the single entry carrying `"B"`. -/
theorem richsync_duplicate_offsets_collapse_witness :
    simplifyLine (.obj [("l", .arr
        (([((.num 0 : JVal), (.str "A" : JVal)),
           (.num 0, .str "B")]).map mkPart))]) =
      .ok ⟨[("l", .arr
        (([((.num 0 : JVal), (.str "A" : JVal)),
           (.num 0, .str "B")]).map mkPart))],
        [(.num 0, .str "B")]⟩ := by
  obtain ⟨w, h1, h2, h3⟩ := richsync_duplicate_offsets_collapse
    [(.num 0, .str "A"), (.num 0, .str "B")] (.num 0) (by decide)
  exact h1.trans (by decide)
